import Mathlib

/-!
Verification of the generic CRUD base controller and error-normalization
pipeline of the node-boilerplate-2025 repository.

The development shallowly embeds the relevant JavaScript modules:

- src/helpers/services/model-helpers.js : arrayOmitter, checkDuplication,
  getFieldAsArray, removeReservedVars, omitter
- src/api/controllers/base.controller.js : BaseController.add / list /
  delete and the protected helpers buildSortOrder, buildFieldSelection,
  buildQueryConditions
- src/helpers/error-handler.js : errorHandler
- src/utils/constants.js and src/utils/constants/constants.js : the two
  constant tables used by the modules above
- src/api/models/company.model.js : the company record-type descriptor
  (protectedFields, searchableFields, declared indexes)

JavaScript objects are modelled as association lists with JS insertion
semantics (updating an existing key keeps its position, a fresh key is
appended).  JS string truthiness (the empty string is falsy) and JS
numeric coercion (Number of an unparseable string is NaN, modelled as
none) are made explicit.  The document store (mongoose / MongoDB) is an
external collaborator; where its behavior matters it is either taken as
an explicit parameter (the filter matcher) or modelled by a small
function carrying a comment describing the collaborator semantics used.
-/

namespace NodeBoilerplate

/-! ## JS object and value model -/

/-- A JSON-ish value as it appears in query-condition objects built by the
controller: plain strings from the query string, numbers, nested objects
and arrays (used for the regex / text-search conditions). -/
inductive JsVal where
  | str (s : String)
  | num (n : Option Int)
  | obj (fields : List (String × JsVal))
  | arr (elems : List JsVal)

/-- Property read on a JS object modelled as an association list: the
first binding of the key, none when the key is absent. -/
def oget {α : Type} (o : List (String × α)) (k : String) : Option α :=
  match o with
  | [] => none
  | (k₂, v) :: rest => if k₂ = k then some v else oget rest k

/-- Property write on a JS object: an existing key is updated in place
(keeping its position), a fresh key is appended at the end.  This is the
JS object-assignment semantics. -/
def oset {α : Type} (o : List (String × α)) (k : String) (v : α) : List (String × α) :=
  match o with
  | [] => [(k, v)]
  | (k₂, w) :: rest => if k₂ = k then (k₂, v) :: rest else (k₂, w) :: oset rest k v

/-- Property deletion on a JS object (the JS delete operator). -/
def odel {α : Type} (o : List (String × α)) (k : String) : List (String × α) :=
  match o with
  | [] => []
  | (k₂, w) :: rest => if k₂ = k then odel rest k else (k₂, w) :: odel rest k

/-- Whether a key is present on a JS object. -/
def hasKey {α : Type} (o : List (String × α)) (k : String) : Bool :=
  (oget o k).isSome

/-- Assign every binding of the second object onto the first, in order.
This is the semantics of a JS object spread that starts from the bindings
of the first object. -/
def osetAll {α : Type} (entries : List (String × α)) (acc : List (String × α)) :
    List (String × α) :=
  entries.foldl (fun a kv => oset a kv.1 kv.2) acc

/-- JS truthiness of a string: only the empty string is falsy. -/
def truthy (s : String) : Bool := s ≠ ""

/-- JS truthiness of a possibly-absent string property. -/
def truthyOpt (s : Option String) : Bool :=
  match s with
  | none => false
  | some v => truthy v

/-! The JS string primitives the embedded code uses (split, trim, join,
toLowerCase, startsWith, Number) are given structurally recursive
character-list implementations so that every definition evaluates by
kernel reduction. -/

/-- Whitespace as JS trim sees it (the characters these code paths can
meet). -/
def isWsp (c : Char) : Bool := c = ' ' || c = '\t' || c = '\n' || c = '\r'

/-- Strip leading and trailing whitespace from a character list. -/
def trimChars (l : List Char) : List Char :=
  ((l.dropWhile isWsp).reverse.dropWhile isWsp).reverse

/-- JS String.prototype.trim. -/
def jsTrim (s : String) : String := String.mk (trimChars s.data)

/-- Splitting worker: cut the character list at every separator. -/
def splitAux (c : Char) : List Char → List Char → List (List Char)
  | [], acc => [acc.reverse]
  | x :: xs, acc =>
    if x = c then acc.reverse :: splitAux c xs [] else splitAux c xs (x :: acc)

/-- JS String.prototype.split with a one-character separator (the only
shape the embedded code uses). -/
def jsSplit (s : String) (c : Char) : List String :=
  (splitAux c s.data []).map String.mk

/-- JS Array.prototype.join. -/
def jsJoin (sep : String) : List String → String
  | [] => ""
  | [x] => x
  | x :: xs => x ++ sep ++ jsJoin sep xs

/-- JS String.prototype.toLowerCase (ASCII, which covers the embedded
inputs). -/
def jsToLower (s : String) : String := String.mk (s.data.map Char.toLower)

/-- The startsWith("$") operator-marker test used on query keys. -/
def startsWithDollar (k : String) : Bool :=
  match k.data with
  | [] => false
  | c :: _ => c = '$'

/-- Decimal digit value. -/
def digitVal (c : Char) : Option Nat :=
  if '0' ≤ c ∧ c ≤ '9' then some (c.toNat - '0'.toNat) else none

/-- Parse a non-empty all-digit list. -/
def parseNatAux : List Char → Nat → Option Nat
  | [], acc => some acc
  | c :: cs, acc =>
    match digitVal c with
    | some d => parseNatAux cs (acc * 10 + d)
    | none => none

/-- Parse a non-empty decimal digit string. -/
def parseNat (l : List Char) : Option Nat :=
  match l with
  | [] => none
  | _ => parseNatAux l 0

/-- JS Number coercion of a string, restricted to the values this code
path can meet: surrounding whitespace is ignored, the empty (or
all-whitespace) string coerces to 0, an optionally signed integral
decimal literal coerces to that integer, and every other string coerces
to NaN, modelled as none.  (Fractional, hexadecimal and exponent
literals also exist in JS; they are outside the shapes the claims
quantify over and are mapped to none as well.) -/
def jsNumber (s : String) : Option Int :=
  match trimChars s.data with
  | [] => some 0
  | '-' :: rest => (parseNat rest).map (fun n => -(n : Int))
  | '+' :: rest => (parseNat rest).map (fun n => (n : Int))
  | t => (parseNat t).map (fun n => (n : Int))

/-- JS subtraction under numeric coercion; NaN (none) propagates. -/
def jsSub (a b : Option Int) : Option Int :=
  match a, b with
  | some x, some y => some (x - y)
  | _, _ => none

/-- JS multiplication under numeric coercion; NaN (none) propagates. -/
def jsMul (a b : Option Int) : Option Int :=
  match a, b with
  | some x, some y => some (x * y)
  | _, _ => none

/-! ## Constants

The repository has two constant tables.  The controller imports
src/utils/constants/constants.js, the error handler imports
src/utils/constants.js; the two differ in the NOT_FOUND message. -/

def OK : Int := 200
def CREATED : Int := 201
def BAD_REQUEST : Int := 400
def NOT_FOUND : Int := 404
def INTERNAL_SERVER_ERROR : Int := 500

namespace SuccessMessages

def CREATED : String := "Resource created successfully"
def UPDATED : String := "Resource updated successfully"
def DELETED : String := "Resource deleted successfully"
def RETRIEVED : String := "Resource retrieved successfully"

end SuccessMessages

-- Messages of src/utils/constants/constants.js (used by the controller).
namespace CtrlMessages

def VALIDATION : String := "Validation Error"
def NOT_FOUND : String := "Resource not found"

end CtrlMessages

-- Messages of src/utils/constants.js (used by the error handler).
namespace EhMessages

def NOT_FOUND : String := "No record found"
def RATE_LIMIT : String := "Too many requests"

end EhMessages

/-! ## model-helpers.js -/

/-- Embeds getFieldAsArray: a truthy (non-empty) comma-separated string
becomes the list of its trimmed components, any falsy input yields
undefined (none). -/
def getFieldAsArray (field : Option String) : Option (List String) :=
  match field with
  | some s => if truthy s then some ((jsSplit s ',').map jsTrim) else none
  | none => none

/-- One step of arrayOmitter: arr.indexOf(element) followed by a single
splice removes only the first occurrence of the element. -/
def removeFirst (arr : List String) (x : String) : List String :=
  match arr with
  | [] => []
  | a :: rest => if a = x then rest else a :: removeFirst rest x

/-- Embeds arrayOmitter: for each value, the first occurrence (if any) in
the array is removed. -/
def arrayOmitter (arr : List String) (values : List String) : List String :=
  values.foldl removeFirst arr

/-- Embeds removeReservedVars: keep exactly the entries whose key is not a
dissolver and does not start with the dollar operator marker. -/
def removeReservedVars (queries : List (String × String)) (dissolvers : List String) :
    List (String × String) :=
  queries.filter (fun kv => !(dissolvers.contains kv.1) && !(startsWithDollar kv.1))

/-- Embeds omitter (restricted to the flat string-valued records the
claims use): drop every binding whose key is listed. -/
def omitter (keys : List String) (o : List (String × String)) : List (String × String) :=
  o.filter (fun kv => !(keys.contains kv.1))

/-! ## Duplicate-key conversion (checkDuplication) -/

/-- A field-scoped sub-error as built by checkDuplication (field plus the
message text stored under the messages property). -/
structure FieldErr where
  field : String
  messages : String
deriving Repr, DecidableEq

/-- The APIError value shape relevant to the claims: message, HTTP-style
status, optional sub-error list.  (The JS class also stores a timestamp
and a stack; neither is inspected by the verified code paths.) -/
structure APIError where
  message : String
  status : Int
  errors : Option (List FieldErr)
deriving Repr, DecidableEq

/-- The storage-driver error shape inspected by checkDuplication. -/
structure MongoErr where
  code : Int
  name : String
  keyPattern : List (String × Int)
deriving Repr, DecidableEq

/-- Result of checkDuplication: either the original driver error is
returned untouched, or a converted structured APIError. -/
inductive DupResult where
  | original (e : MongoErr)
  | converted (e : APIError)
deriving Repr, DecidableEq

/-- The per-word capitalization step of checkDuplication:
word.charAt(0).toUpperCase() + word.slice(1) (the empty word maps to
itself). -/
def capitalizeWord (w : String) : String :=
  match w.data with
  | [] => ""
  | c :: cs => String.mk (c.toUpper :: cs)

/-- Title-casing of a snake_case key as done inline by checkDuplication:
lower-case the key, split on underscores, capitalize each word, join with
spaces. -/
def titleCaseKey (key : String) : String :=
  jsJoin " " ((jsSplit (jsToLower key) '_').map capitalizeWord)

/-- Embeds checkDuplication from model-helpers.js. -/
def checkDuplication (error : MongoErr) : DupResult :=
  if error.code = 11000 ∧
      (error.name = "BulkWriteError" ∨ error.name = "MongoError" ∨
        error.name = "MongoServerError") then
    let keys := error.keyPattern.map Prod.fst
    if keys.length = 0 then
      DupResult.original error
    else
      DupResult.converted
        { message := CtrlMessages.VALIDATION
          status := BAD_REQUEST
          errors := some (keys.map (fun key =>
            { field := key, messages := titleCaseKey key ++ " already in use." })) }
  else
    DupResult.original error

/-! ## Record-type descriptor (company.model.js statics and schema) -/

/-- The static per-collection metadata the controller reads from its
model: protected fields, searchable fields, and the declared indexes
(each an object of field to index-kind value, as returned by
schema.indexes()). -/
structure ModelDesc where
  protectedFields : List String
  searchableFields : List String
  indexes : List (List (String × JsVal))

/-- The company descriptor from company.model.js: protectedFields and
searchableFields statics plus the three explicitly declared indexes (all
numeric-direction, none of kind text). -/
def companyModel : ModelDesc :=
  { protectedFields := ["__v", "created_at", "updated_at"]
    searchableFields := ["name", "slug"]
    indexes :=
      [ [("name", JsVal.num (some 1)), ("status", JsVal.num (some 1))]
      , [("status", JsVal.num (some 1)), ("created_at", JsVal.num (some (-1)))]
      , [("slug", JsVal.num (some 1))] ] }

/-- Embeds the text-index probe of buildQueryConditions:
schema.indexes().some(idx => Object.values(idx[0]).includes("text")). -/
def hasTextIndex (m : ModelDesc) : Bool :=
  m.indexes.any (fun idx => idx.any (fun kv =>
    match kv.2 with
    | JsVal.str s => s = "text"
    | _ => false))

/-! ## Field selection (buildFieldSelection) -/

/-- The three shapes buildFieldSelection can hand to the store: an
exclusion-projection object (each listed field mapped to 0), an
inclusion string of space-joined field names, or null. -/
inductive Projection where
  | excludeObj (proj : List (String × Int))
  | includeStr (s : String)
  | nullProj
deriving Repr, DecidableEq

/-- Embeds BaseController buildFieldSelection: with no truthy fields
parameter, reduce the protected fields into an exclusion object;
otherwise omit the protected fields from the requested list and return
the space-joined inclusion string, or null when the remaining list is
empty. -/
def buildFieldSelection (fieldsParam : Option String) (m : ModelDesc) : Projection :=
  match getFieldAsArray fieldsParam with
  | none =>
    Projection.excludeObj (m.protectedFields.foldl (fun proj field => oset proj field 0) [])
  | some attrs =>
    let attributes := arrayOmitter attrs m.protectedFields
    if attributes.length ≠ 0 then
      Projection.includeStr (jsJoin " " attributes)
    else
      Projection.nullProj

/-! ## Sort order (buildSortOrder) -/

/-- Embeds BaseController buildSortOrder: the comma-lists asc and dsc
are read leniently (absent or empty become the empty list); ascending
fields are assigned 1 first, then descending fields are assigned -1 on
the same object, so a field in both lists ends up descending. -/
def buildSortOrder (q : List (String × String)) : List (String × Int) :=
  let asc := (getFieldAsArray (oget q "asc")).getD []
  let dsc := (getFieldAsArray (oget q "dsc")).getD []
  let sortOrder := asc.foldl (fun so field => oset so field 1) []
  dsc.foldl (fun so field => oset so field (-1)) sortOrder

/-! ## Filter conditions (removeReservedVars + buildQueryConditions) -/

/-- Modelled from the spec: the reservedVar list is imported by the
controller from src/utils/constants/settings.js, a file that is not
among the provided sources.  The spec fixes the reserved control
parameters as page, perPage, asc, dsc, fields and query. -/
def reservedVar : List String := ["page", "perPage", "asc", "dsc", "fields", "query"]

/-- The findQuery the list method computes before building conditions:
removeReservedVars(req.query, reservedVar), with the surviving string
values embedded as JS string values. -/
def findQueryOf (q : List (String × String)) : List (String × JsVal) :=
  (removeReservedVars q reservedVar).map (fun kv => (kv.1, JsVal.str kv.2))

/-- The case-insensitive partial-match condition built for one
searchable field. -/
def regexCond (search : String) : JsVal :=
  JsVal.obj [("$regex", JsVal.str search), ("$options", JsVal.str "i")]

/-- The final parameter sweep of buildQueryConditions: every query entry
whose key does not start with the dollar marker and is not reserved is
assigned onto the condition object. -/
def addLiteralParams (reqQuery : List (String × String)) (finalQuery : List (String × JsVal)) :
    List (String × JsVal) :=
  reqQuery.foldl
    (fun acc kv =>
      if !(startsWithDollar kv.1) && !(reservedVar.contains kv.1) then
        oset acc kv.1 (JsVal.str kv.2)
      else acc)
    finalQuery

/-- Embeds BaseController buildQueryConditions.  A truthy free-text query
parameter either returns at once with a text-search object spread before
the cleaned parameters (when the schema declares a text index), or adds
an or-list of per-searchable-field regex conditions; in every branch the
remaining literal parameters are assigned onto the result. -/
def buildQueryConditions (m : ModelDesc) (reqQuery : List (String × String))
    (findQuery : List (String × JsVal)) : List (String × JsVal) :=
  match oget reqQuery "query" with
  | some qs =>
    if truthy qs then
      if hasTextIndex m then
        osetAll findQuery [("$text", JsVal.obj [("$search", JsVal.str qs)])]
      else
        let searchConditions := m.searchableFields.map (fun field => (field, regexCond qs))
        let finalQuery :=
          if 0 < searchConditions.length then
            oset findQuery "$or"
              (JsVal.arr (searchConditions.map (fun fc => JsVal.obj [(fc.1, fc.2)])))
          else findQuery
        addLiteralParams reqQuery finalQuery
    else addLiteralParams reqQuery findQuery
  | none => addLiteralParams reqQuery findQuery

/-! ## Records and store operations -/

/-- A stored record: its identifier plus its payload fields (flat
string-valued, which is all the claims need). -/
structure Record where
  id : String
  fields : List (String × String)
deriving Repr, DecidableEq

/-- The public transform of a record (company.model.js transform):
toObject with every protected field omitted. -/
def transform (m : ModelDesc) (r : Record) : List (String × String) :=
  omitter m.protectedFields r.fields

/-- Store projection semantics applied to one record (the mongoose
select collaborator): a null selection is ignored entirely, a
space-joined string is an inclusion projection, an exclusion object
drops the listed fields.  The identifier is kept in every case. -/
def applySelect (p : Projection) (r : Record) : Record :=
  match p with
  | Projection.nullProj => r
  | Projection.includeStr s =>
    { r with fields := r.fields.filter (fun kv => (jsSplit s ' ').contains kv.1) }
  | Projection.excludeObj proj =>
    { r with fields := r.fields.filter (fun kv => !(hasKey proj kv.1)) }

/-- Record comparison induced by a sort-order object: walk the (field,
direction) entries in order, comparing the string values of the named
field (absent fields read as the empty string), flipping for negative
directions. -/
def cmpByOrder (so : List (String × Int)) (r₁ r₂ : Record) : Bool :=
  match so with
  | [] => true
  | (f, dir) :: rest =>
    let v₁ := (oget r₁.fields f).getD ""
    let v₂ := (oget r₂.fields f).getD ""
    if v₁ = v₂ then cmpByOrder rest r₁ r₂
    else if 0 ≤ dir then decide (v₁ ≤ v₂) else decide (v₂ ≤ v₁)

/-- Insertion step of the store-side sort. -/
def insertLe (le : Record → Record → Bool) (x : Record) : List Record → List Record
  | [] => [x]
  | y :: ys => if le x y then x :: y :: ys else y :: insertLe le x ys

/-- The store-side sort of matched records (the mongoose sort
collaborator, modelled as an insertion sort over cmpByOrder). -/
def sortByLe (le : Record → Record → Bool) (l : List Record) : List Record :=
  l.foldr (insertLe le) []

/-! ## The list method (BaseController.list) -/

/-- The destructured page parameter: absent defaults to the number 1, a
present string goes through JS numeric coercion when used
arithmetically. -/
def pageNum (q : List (String × String)) : Option Int :=
  match oget q "page" with
  | none => some 1
  | some s => jsNumber s

/-- The destructured perPage parameter: absent defaults to the number
10, a present string goes through JS numeric coercion when used
arithmetically. -/
def perPageNum (q : List (String × String)) : Option Int :=
  match oget q "perPage" with
  | none => some 10
  | some s => jsNumber s

/-- The pagination guard of list: the double-negation truthiness of the
raw perPage query value. -/
def shouldPaginate (q : List (String × String)) : Bool :=
  truthyOpt (oget q "perPage")

/-- The pagination bounds the list method hands to the store: none when
the guard is off (no skip and no limit are applied at all), otherwise
the pair of skip = (page - 1) * perPage and limit = perPage, each a JS
number that is none when the coercion produced NaN. -/
def paginationBounds (q : List (String × String)) : Option (Option Int × Option Int) :=
  if shouldPaginate q then
    some (jsMul (jsSub (pageNum q) (some 1)) (perPageNum q), perPageNum q)
  else none

/-- The matched, sorted and projected result list of the list method
before pagination, for a given store matcher (the document-store filter
semantics, an external collaborator taken as a parameter), store
content, descriptor and query. -/
def baseResults (matchFn : List (String × JsVal) → Record → Bool) (store : List Record)
    (m : ModelDesc) (q : List (String × String)) : List Record :=
  (sortByLe (cmpByOrder (buildSortOrder q))
      (store.filter (matchFn (buildQueryConditions m q (findQueryOf q))))).map
    (applySelect (buildFieldSelection (oget q "fields") m))

/-- The unconditional total-match count of the list method
(countDocuments over the same conditions, untouched by pagination). -/
def totalCount (matchFn : List (String × JsVal) → Record → Bool) (store : List Record)
    (m : ModelDesc) (q : List (String × String)) : Nat :=
  (store.filter (matchFn (buildQueryConditions m q (findQueryOf q)))).length

/-- The success payload of the list method. -/
structure ListResponse where
  status : Int
  data : List Record
  code : Int
  count : Nat
  total : Nat
  message : String
deriving Repr, DecidableEq

/-- Embeds BaseController.list (population of references left out: it
only expands references inside returned records and touches none of the
verified observations).  The store is abstracted by the matcher
parameter; skip and limit are applied exactly when the pagination guard
holds.  A NaN or negative skip, or a NaN limit, is answered by the store
with an error (mongoose casts string bounds and rejects non-numeric
ones, and the server rejects negative skips); that outcome is modelled
as none. -/
def listHandler (matchFn : List (String × JsVal) → Record → Bool) (store : List Record)
    (m : ModelDesc) (q : List (String × String)) : Option ListResponse :=
  let selected := baseResults matchFn store m q
  let results? : Option (List Record) :=
    if shouldPaginate q then
      match jsMul (jsSub (pageNum q) (some 1)) (perPageNum q), perPageNum q with
      | some sk, some lim =>
        if sk < 0 then none else some ((selected.drop sk.toNat).take lim.toNat)
      | _, _ => none
    else some selected
  results?.map (fun results =>
    { status := OK
      data := results
      code := OK
      count := results.length
      total := totalCount matchFn store m q
      message := if 0 < results.length then SuccessMessages.RETRIEVED else CtrlMessages.NOT_FOUND })

/-! ## The add method (BaseController.add) -/

/-- Outcome of the add method: a created response built from the saved
record's public transform, or a forwarded failure after the
duplicate-key conversion. -/
inductive AddOutcome where
  | success (status : Int) (data : List (String × String)) (code : Int) (message : String)
  | failure (e : DupResult)
deriving Repr, DecidableEq

/-- Embeds BaseController.add, with the save round trip to the store
abstracted as its result: a saved record yields a 201 response holding
the record's transform, a storage error is converted by checkDuplication
and forwarded. -/
def addHandler (m : ModelDesc) (saveResult : Except MongoErr Record) : AddOutcome :=
  match saveResult with
  | Except.ok savedObject =>
    AddOutcome.success CREATED (transform m savedObject) OK SuccessMessages.CREATED
  | Except.error err => AddOutcome.failure (checkDuplication err)

/-! ## The delete method (BaseController.delete) -/

/-- findByIdAndDelete lookup half: the first record carrying the
identifier. -/
def findById (store : List Record) (id : String) : Option Record :=
  store.find? (fun r => r.id == id)

/-- findByIdAndDelete removal half: the store with the first record
carrying the identifier removed. -/
def deleteById : List Record → String → List Record
  | [], _ => []
  | r :: rest, id => if r.id == id then rest else r :: deleteById rest id

/-- The single-record success payload of delete. -/
structure DataResponse where
  status : Int
  data : Record
  code : Int
  message : String
deriving Repr, DecidableEq

/-- Embeds BaseController.delete: a matching record is removed and
returned raw (res.json receives the record itself, with no transform
call), a missing identifier raises the 404 APIError installed by
orFail. -/
def deleteHandler (store : List Record) (id : String) :
    Except APIError (DataResponse × List Record) :=
  match findById store id with
  | some record =>
    Except.ok
      ({ status := OK, data := record, code := OK, message := SuccessMessages.DELETED },
        deleteById store id)
  | none =>
    Except.error { message := CtrlMessages.NOT_FOUND, status := NOT_FOUND, errors := none }

/-! ## The error handler (error-handler.js errorHandler) -/

/-- A value stored on the JSON error-response object.  vUndef models a
key that exists but holds the JS undefined value (assigning a missing
stack in development still creates the key). -/
inductive RVal where
  | vBool (b : Bool)
  | vInt (n : Int)
  | vStr (s : String)
  | vErrs (es : List FieldErr)
  | vUndef
deriving Repr, DecidableEq

/-- The failure value reaching errorHandler: optional status, message
(always a string on a JS Error, possibly empty), optional sub-error list
(none models both null and undefined, and truthiness of a present list
does not depend on its emptiness), optional stack, and the constructor
name. -/
structure ErrIn where
  status : Option Int
  message : String
  errors : Option (List FieldErr)
  stack : Option String
  ctorName : String
deriving Repr, DecidableEq

/-- JS a-or-b on an optional number (0 and absent are falsy). -/
def jsOrInt (v : Option Int) (d : Int) : Int :=
  match v with
  | some n => if n = 0 then d else n
  | none => d

/-- Embeds errorHandler from error-handler.js: build the base response
(success, code, message, and errors only when err.errors is truthy),
attach stack and constructor name in development, and in production
replace the message and drop the errors list for 5xx codes and always
drop the stack.  The result is the HTTP status written (response.code)
paired with the JSON response object. -/
def errorHandler (env : String) (err : ErrIn) : Int × List (String × RVal) :=
  let code := jsOrInt err.status INTERNAL_SERVER_ERROR
  let message := if err.message = "" then "Internal Server Error" else err.message
  let response : List (String × RVal) :=
    [("success", RVal.vBool false), ("code", RVal.vInt code), ("message", RVal.vStr message)] ++
      (match err.errors with
       | some es => [("errors", RVal.vErrs es)]
       | none => [])
  let response :=
    if env = "development" then
      oset
        (oset response "stack"
          (match err.stack with
           | some s => RVal.vStr s
           | none => RVal.vUndef))
        "type" (RVal.vStr err.ctorName)
    else response
  let response :=
    if env = "production" then
      let r₁ := if 500 ≤ code then oset response "message" (RVal.vStr "Internal Server Error") else response
      let r₂ := odel r₁ "stack"
      if 500 ≤ code then odel r₂ "errors" else r₂
    else response
  (code, response)

/-! ## Helper lemmas on the object model -/

theorem oget_oset {α : Type} (o : List (String × α)) (k k₂ : String) (v : α) :
    oget (oset o k v) k₂ = if k = k₂ then some v else oget o k₂ := by
  induction o with
  | nil =>
    by_cases h : k = k₂ <;> simp [oset, oget, h]
  | cons hd tl ih =>
    by_cases h₂ : k = k₂
    · subst h₂
      by_cases h₁ : hd.1 = k <;> simp [oset, oget, h₁, ih]
    · by_cases h₁ : hd.1 = k
      · have h₄ : ¬hd.1 = k₂ := by rw [h₁]; exact h₂
        simp [oset, oget, h₁, h₂, h₄]
      · have h₆ : ¬k₂ = k := fun hh => h₂ hh.symm
        by_cases h₅ : hd.1 = k₂ <;> simp [oset, oget, h₁, h₂, h₅, h₆, ih]

theorem oget_odel {α : Type} (o : List (String × α)) (k k₂ : String) :
    oget (odel o k) k₂ = if k = k₂ then none else oget o k₂ := by
  induction o with
  | nil => by_cases h : k = k₂ <;> simp [odel, oget, h]
  | cons hd tl ih =>
    by_cases h₂ : k = k₂
    · subst h₂
      by_cases h₁ : hd.1 = k <;> simp [odel, oget, h₁, ih]
    · by_cases h₁ : hd.1 = k
      · have h₄ : ¬hd.1 = k₂ := by rw [h₁]; exact h₂
        simp [odel, oget, h₁, h₂, h₄, ih]
      · have h₆ : ¬k₂ = k := fun hh => h₂ hh.symm
        by_cases h₅ : hd.1 = k₂ <;> simp [odel, oget, h₁, h₂, h₅, h₆, ih]

/-- The last-assignment-wins value a sequence of object assignments
leaves under a key. -/
def lastVal {α : Type} : List (String × α) → String → Option α
  | [], _ => none
  | e :: rest, k =>
    match lastVal rest k with
    | some v => some v
    | none => if e.1 = k then some e.2 else none

theorem oget_osetAll {α : Type} (entries acc : List (String × α)) (k : String) :
    oget (osetAll entries acc) k =
      match lastVal entries k with
      | some v => some v
      | none => oget acc k := by
  induction entries generalizing acc with
  | nil => simp [osetAll, lastVal]
  | cons e rest ih =>
    have : osetAll (e :: rest) acc = osetAll rest (oset acc e.1 e.2) := rfl
    rw [this, ih]
    cases h : lastVal rest k with
    | some v => simp [lastVal, h]
    | none =>
      by_cases h₂ : e.1 = k <;> simp [lastVal, h, h₂, oget_oset]

/-! ## Helper lemmas on the literal-parameter sweep -/

/-- The guard the literal-parameter sweep applies to a key: not an
operator key, not a reserved control parameter. -/
def litKeep (k : String) : Bool := !(startsWithDollar k) && !(reservedVar.contains k)

/-- The entries of the query that survive the reserved-and-operator
filter, as condition-object assignments. -/
def litFilter (q : List (String × String)) : List (String × JsVal) :=
  (q.filter (fun kv => litKeep kv.1)).map (fun kv => (kv.1, JsVal.str kv.2))

theorem litFilter_cons (e : String × String) (rest : List (String × String)) :
    litFilter (e :: rest) =
      if litKeep e.1 then (e.1, JsVal.str e.2) :: litFilter rest else litFilter rest := by
  by_cases hc : litKeep e.1 = true <;>
    simp [litFilter, List.filter_cons, hc]

theorem addLiteralParams_eq (q : List (String × String)) (acc : List (String × JsVal)) :
    addLiteralParams q acc = osetAll (litFilter q) acc := by
  have hfold : ∀ (q : List (String × String)) (acc : List (String × JsVal)),
      addLiteralParams q acc =
        q.foldl (fun a kv => if litKeep kv.1 then oset a kv.1 (JsVal.str kv.2) else a) acc :=
    fun _ _ => rfl
  induction q generalizing acc with
  | nil => rfl
  | cons e rest ih =>
    rw [hfold, List.foldl_cons, ← hfold, litFilter_cons]
    by_cases hc : litKeep e.1 = true
    · rw [if_pos hc, if_pos hc, ih]
      rfl
    · rw [if_neg hc, if_neg hc, ih]

theorem findQueryOf_eq (q : List (String × String)) : findQueryOf q = litFilter q := by
  unfold findQueryOf litFilter removeReservedVars
  congr 1
  exact List.filter_congr (fun a _ => by simp [litKeep, Bool.and_comm])

theorem lastVal_litFilter_notMem (q : List (String × String)) (k : String)
    (h : k ∉ q.map Prod.fst) : lastVal (litFilter q) k = none := by
  induction q with
  | nil => rfl
  | cons e rest ih =>
    have hk : e.1 ≠ k := by
      intro he
      exact h (by simp [he])
    have hrest : k ∉ rest.map Prod.fst := fun hm => h (by simp [hm])
    rw [litFilter_cons]
    by_cases hc : litKeep e.1 = true
    · rw [if_pos hc]
      simp [lastVal, ih hrest, hk]
    · rw [if_neg hc]
      exact ih hrest

theorem lastVal_litFilter_none (q : List (String × String)) (k : String)
    (h : litKeep k = false) : lastVal (litFilter q) k = none := by
  induction q with
  | nil => rfl
  | cons e rest ih =>
    rw [litFilter_cons]
    by_cases hc : litKeep e.1 = true
    · have hk : e.1 ≠ k := by
        intro he
        rw [he, h] at hc
        exact absurd hc (by decide)
      rw [if_pos hc]
      simp [lastVal, ih, hk]
    · rw [if_neg hc]
      exact ih

theorem oget_litFilter_none (q : List (String × String)) (k : String)
    (h : litKeep k = false) : oget (litFilter q) k = none := by
  induction q with
  | nil => rfl
  | cons e rest ih =>
    rw [litFilter_cons]
    by_cases hc : litKeep e.1 = true
    · have hk : e.1 ≠ k := by
        intro he
        rw [he, h] at hc
        exact absurd hc (by decide)
      rw [if_pos hc]
      simp [oget, hk, ih]
    · rw [if_neg hc]
      exact ih

theorem lastVal_litFilter_some (q : List (String × String)) (k : String) (v : String)
    (hq : (q.map Prod.fst).Nodup) (hv : oget q k = some v)
    (h : litKeep k = true) : lastVal (litFilter q) k = some (JsVal.str v) := by
  induction q with
  | nil => simp [oget] at hv
  | cons e rest ih =>
    rw [List.map_cons] at hq
    have hnd := List.nodup_cons.mp hq
    rw [litFilter_cons]
    by_cases hk : e.1 = k
    · have hev : e.2 = v := by
        simpa [oget, hk] using hv
      have hc : litKeep e.1 = true := by rw [hk]; exact h
      have hnotmem : k ∉ rest.map Prod.fst := by
        rw [← hk]; exact hnd.1
      rw [if_pos hc]
      simp [lastVal, lastVal_litFilter_notMem rest k hnotmem, hk, hev]
    · have hv₂ : oget rest k = some v := by
        simpa [oget, hk] using hv
      have ih₂ := ih hnd.2 hv₂
      by_cases hc : litKeep e.1 = true
      · rw [if_pos hc]
        simp [lastVal, ih₂]
      · rw [if_neg hc]
        exact ih₂

/-! ## Helper lemmas on the store-side sort -/

theorem length_insertLe (le : Record → Record → Bool) (x : Record) (l : List Record) :
    (insertLe le x l).length = l.length + 1 := by
  induction l with
  | nil => rfl
  | cons y ys ih =>
    by_cases h : le x y <;> simp [insertLe, h, ih]

theorem length_sortByLe (le : Record → Record → Bool) (l : List Record) :
    (sortByLe le l).length = l.length := by
  induction l with
  | nil => rfl
  | cons y ys ih =>
    simp [sortByLe, List.foldr_cons, length_insertLe]
    simpa [sortByLe] using ih

theorem length_baseResults (matchFn : List (String × JsVal) → Record → Bool)
    (store : List Record) (m : ModelDesc) (q : List (String × String)) :
    (baseResults matchFn store m q).length = totalCount matchFn store m q := by
  simp [baseResults, totalCount, length_sortByLe, List.length_map]

/-! ## Claim theorems -/

/-- C1: the claim states that no protected field ever appears in the
response projection, even when the caller names it repeatedly in the
fields parameter.  Evaluating the code at fields = "__v,__v" against the
company descriptor (whose protectedFields contain __v) shows the claim
fails: arrayOmitter removes only the first occurrence of each protected
field, so the built inclusion projection still selects the protected
field __v. -/
theorem c1_protected_field_included_when_repeated :
    buildFieldSelection (some "__v,__v") companyModel = Projection.includeStr "__v" ∧
      companyModel.protectedFields.contains "__v" = true := by
  exact ⟨by decide, by decide⟩

/-- C6: the claim states that when the requested field list is emptied by
protected-field removal, the projection selects no payload fields beyond
the identifier.  Evaluating the code at fields = "__v" (a request
containing only a protected field) shows buildFieldSelection returns
null instead, and the store ignores a null selection entirely, so the
whole record - protected field included - is returned. -/
theorem c6_emptied_field_list_yields_null_selection :
    buildFieldSelection (some "__v") companyModel = Projection.nullProj ∧
      applySelect (buildFieldSelection (some "__v") companyModel)
          { id := "1", fields := [("name", "Acme"), ("__v", "0")] } =
        { id := "1", fields := [("name", "Acme"), ("__v", "0")] } := by
  exact ⟨by decide, by decide⟩

/-- C10: a fields parameter present but equal to the empty string is
falsy in JS, so getFieldAsArray yields no list and field selection takes
the same default-exclusion branch as an absent parameter; in particular
the empty-inclusion (null projection) edge case is not triggered. -/
theorem c10_empty_fields_param_is_like_absent (m : ModelDesc) :
    buildFieldSelection (some "") m = buildFieldSelection none m ∧
      buildFieldSelection (some "") m =
        Projection.excludeObj
          (m.protectedFields.foldl (fun proj field => oset proj field 0) []) ∧
      buildFieldSelection (some "") m ≠ Projection.nullProj := by
  refine ⟨rfl, rfl, ?_⟩
  intro h
  exact Projection.noConfusion h

/-- C3: a storage uniqueness conflict (duplicate-key code 11000 under one
of the recognized driver error names, with a non-empty key pattern) is
converted into a structured APIError of status 400 carrying exactly one
sub-error per conflicting field, each message being the snake_case field
name title-cased followed by " already in use.", and the add method
forwards exactly this converted failure. -/
theorem c3_duplicate_key_conversion (e : MongoErr) (m : ModelDesc)
    (hc : e.code = 11000)
    (hn : e.name = "BulkWriteError" ∨ e.name = "MongoError" ∨ e.name = "MongoServerError")
    (hk : e.keyPattern ≠ []) :
    checkDuplication e =
        DupResult.converted
          { message := CtrlMessages.VALIDATION
            status := BAD_REQUEST
            errors := some (e.keyPattern.map (fun kv =>
              { field := kv.1, messages := titleCaseKey kv.1 ++ " already in use." })) } ∧
      addHandler m (Except.error e) =
        AddOutcome.failure
          (DupResult.converted
            { message := CtrlMessages.VALIDATION
              status := BAD_REQUEST
              errors := some (e.keyPattern.map (fun kv =>
                { field := kv.1, messages := titleCaseKey kv.1 ++ " already in use." })) }) := by
  have h₁ : checkDuplication e =
      DupResult.converted
        { message := CtrlMessages.VALIDATION
          status := BAD_REQUEST
          errors := some (e.keyPattern.map (fun kv =>
            { field := kv.1, messages := titleCaseKey kv.1 ++ " already in use." })) } := by
    unfold checkDuplication
    rw [if_pos ⟨hc, hn⟩, if_neg (by simpa using hk)]
    simp [List.map_map, Function.comp]
  refine ⟨h₁, ?_⟩
  have h₂ : addHandler m (Except.error e) = AddOutcome.failure (checkDuplication e) := rfl
  rw [h₂, h₁]

/-- Witness for C3 at a concrete duplicate-key error on the snake_case
field user_name. -/
theorem c3_duplicate_key_conversion_witness :
    checkDuplication
        { code := 11000, name := "MongoServerError", keyPattern := [("user_name", 1)] } =
      DupResult.converted
        { message := "Validation Error"
          status := 400
          errors := some [{ field := "user_name", messages := "User Name already in use." }] } := by
  rw [(c3_duplicate_key_conversion
        { code := 11000, name := "MongoServerError", keyPattern := [("user_name", 1)] }
        companyModel rfl (Or.inr (Or.inr rfl)) (by decide)).1]
  decide

/-- C9: delete on an existing identifier answers 200 with the raw
now-deleted record (no transform is applied), and on a missing
identifier raises the 404 not-found APIError. -/
theorem c9_delete_contract (store : List Record) (id : String) :
    (∀ r, findById store id = some r →
      deleteHandler store id =
        Except.ok
          ({ status := OK, data := r, code := OK, message := SuccessMessages.DELETED },
            deleteById store id)) ∧
      (findById store id = none →
        deleteHandler store id =
          Except.error { message := CtrlMessages.NOT_FOUND, status := NOT_FOUND, errors := none }) := by
  constructor
  · intro r hr
    simp [deleteHandler, hr]
  · intro hn
    simp [deleteHandler, hn]

/-- Witness for C9: a concrete store where the deleted record still
carries the protected field __v in the returned raw data (the public
transform would have stripped it), and a miss on an empty store. -/
theorem c9_delete_contract_witness :
    deleteHandler [{ id := "1", fields := [("name", "Acme"), ("__v", "0")] }] "1" =
        Except.ok
          ({ status := 200
             data := { id := "1", fields := [("name", "Acme"), ("__v", "0")] }
             code := 200
             message := "Resource deleted successfully" }, []) ∧
      deleteHandler [] "2" =
        Except.error { message := "Resource not found", status := 404, errors := none } ∧
      transform companyModel { id := "1", fields := [("name", "Acme"), ("__v", "0")] } ≠
        [("name", "Acme"), ("__v", "0")] := by
  refine ⟨?_, ?_, by decide⟩
  · exact (c9_delete_contract [{ id := "1", fields := [("name", "Acme"), ("__v", "0")] }] "1").1
      { id := "1", fields := [("name", "Acme"), ("__v", "0")] } rfl
  · exact (c9_delete_contract [] "2").2 rfl

/-- C4 counterexample: the claim says development mode attaches stack,
error type, request path and request method.  At a concrete internal
failure in development the emitted response carries no path and no
method key: errorHandler only ever attaches stack and type. -/
theorem c4_dev_no_path_no_method_counterexample :
    hasKey (errorHandler "development"
        { status := some 500, message := "boom", errors := none, stack := some "trace"
          ctorName := "Error" }).2 "path" = false ∧
      hasKey (errorHandler "development"
          { status := some 500, message := "boom", errors := none, stack := some "trace"
            ctorName := "Error" }).2 "method" = false ∧
      hasKey (errorHandler "development"
          { status := some 500, message := "boom", errors := none, stack := some "trace"
            ctorName := "Error" }).2 "stack" = true := by
  exact ⟨by decide, by decide, by decide⟩

/-- C4 amended: in production mode a final status of at least 500 gets
the generic message and loses the errors list, and the stack key is
never emitted in production under any status; in development mode the
stack and error-type keys are attached for every status; the request
path and method keys are never attached by errorHandler in any mode. -/
theorem c4_redaction_amended (env : String) (err : ErrIn) :
    (env = "production" →
      hasKey (errorHandler env err).2 "stack" = false ∧
        (500 ≤ (errorHandler env err).1 →
          oget (errorHandler env err).2 "message" = some (RVal.vStr "Internal Server Error") ∧
            hasKey (errorHandler env err).2 "errors" = false)) ∧
      (env = "development" →
        hasKey (errorHandler env err).2 "stack" = true ∧
          hasKey (errorHandler env err).2 "type" = true) ∧
      hasKey (errorHandler env err).2 "path" = false ∧
      hasKey (errorHandler env err).2 "method" = false := by
  have hcode : (errorHandler env err).1 = jsOrInt err.status INTERNAL_SERVER_ERROR := rfl
  refine ⟨?_, ?_, ?_, ?_⟩
  · intro hp
    subst hp
    constructor
    · unfold errorHandler
      by_cases hc : 500 ≤ jsOrInt err.status INTERNAL_SERVER_ERROR <;>
        cases herr : err.errors <;>
        cases hst : err.stack <;>
        simp [hasKey, hc, herr, hst, oget_oset, oget_odel, oget]
    · intro h5
      rw [hcode] at h5
      unfold errorHandler
      cases herr : err.errors <;>
        cases hst : err.stack <;>
        simp [hasKey, h5, herr, hst, oget_oset, oget_odel, oget]
  · intro hd
    subst hd
    unfold errorHandler
    cases herr : err.errors <;>
      cases hst : err.stack <;>
      simp [hasKey, herr, hst, oget_oset, oget_odel, oget]
  · unfold errorHandler
    by_cases hd : env = "development" <;> by_cases hp : env = "production" <;>
      by_cases hc : 500 ≤ jsOrInt err.status INTERNAL_SERVER_ERROR <;>
      cases herr : err.errors <;>
      cases hst : err.stack <;>
      simp [hasKey, hd, hp, hc, herr, hst, oget_oset, oget_odel, oget]
  · unfold errorHandler
    by_cases hd : env = "development" <;> by_cases hp : env = "production" <;>
      by_cases hc : 500 ≤ jsOrInt err.status INTERNAL_SERVER_ERROR <;>
      cases herr : err.errors <;>
      cases hst : err.stack <;>
      simp [hasKey, hd, hp, hc, herr, hst, oget_oset, oget_odel, oget]

/-- Witness for C4 at a concrete 500 failure in production and a
concrete 400 failure in development. -/
theorem c4_redaction_amended_witness :
    (hasKey (errorHandler "production"
        { status := some 503, message := "db down", errors := some [⟨"f", "m"⟩]
          stack := some "trace", ctorName := "Error" }).2 "stack" = false ∧
      oget (errorHandler "production"
          { status := some 503, message := "db down", errors := some [⟨"f", "m"⟩]
            stack := some "trace", ctorName := "Error" }).2 "message" =
        some (RVal.vStr "Internal Server Error") ∧
      hasKey (errorHandler "production"
          { status := some 503, message := "db down", errors := some [⟨"f", "m"⟩]
            stack := some "trace", ctorName := "Error" }).2 "errors" = false) ∧
      hasKey (errorHandler "development"
          { status := some 400, message := "bad", errors := none, stack := none
            ctorName := "APIError" }).2 "type" = true := by
  constructor
  · have h := (c4_redaction_amended "production"
      { status := some 503, message := "db down", errors := some [⟨"f", "m"⟩]
        stack := some "trace", ctorName := "Error" }).1 rfl
    exact ⟨h.1, (h.2 (by decide)).1, (h.2 (by decide)).2⟩
  · exact ((c4_redaction_amended "development"
      { status := some 400, message := "bad", errors := none, stack := none
        ctorName := "APIError" }).2.1 rfl).2

/-- C7 counterexample: the claim says the errors key is present only
when the ErrorValue carries a non-empty list, and in particular that an
empty list yields no errors key.  In JS an empty array is truthy, so a
failure carrying an empty errors list still gets an errors key. -/
theorem c7_empty_errors_list_counterexample :
    ({ status := some 400, message := "Validation Error", errors := some []
       stack := none, ctorName := "APIError" } : ErrIn).errors = some ([] : List FieldErr) ∧
      hasKey (errorHandler "test"
          { status := some 400, message := "Validation Error", errors := some []
            stack := none, ctorName := "APIError" }).2 "errors" = true := by
  exact ⟨rfl, by decide⟩

/-- C7 amended: errorHandler always produces exactly one envelope with
success false, a code equal to the ErrorValue's (nonzero) status, a
message key, and an errors key exactly when the ErrorValue's errors
value is truthy (any non-null list, an empty one included) and the
production 5xx redaction did not drop it. -/
theorem c7_envelope_amended (env : String) (err : ErrIn) :
    oget (errorHandler env err).2 "success" = some (RVal.vBool false) ∧
      (∀ s, err.status = some s → s ≠ 0 → (errorHandler env err).1 = s) ∧
      oget (errorHandler env err).2 "code" = some (RVal.vInt (errorHandler env err).1) ∧
      hasKey (errorHandler env err).2 "message" = true ∧
      hasKey (errorHandler env err).2 "errors" =
        (err.errors.isSome &&
          !(decide (env = "production") && decide (500 ≤ (errorHandler env err).1))) := by
  have hcode : (errorHandler env err).1 = jsOrInt err.status INTERNAL_SERVER_ERROR := rfl
  refine ⟨?_, ?_, ?_, ?_, ?_⟩
  · unfold errorHandler
    by_cases hd : env = "development" <;> by_cases hp : env = "production" <;>
      by_cases hc : 500 ≤ jsOrInt err.status INTERNAL_SERVER_ERROR <;>
      cases herr : err.errors <;>
      cases hst : err.stack <;>
      simp [hd, hp, hc, herr, hst, oget_oset, oget_odel, oget]
  · intro s hs hns
    rw [hcode]
    simp [jsOrInt, hs, hns]
  · rw [hcode]
    unfold errorHandler
    by_cases hd : env = "development" <;> by_cases hp : env = "production" <;>
      by_cases hc : 500 ≤ jsOrInt err.status INTERNAL_SERVER_ERROR <;>
      cases herr : err.errors <;>
      cases hst : err.stack <;>
      simp [hd, hp, hc, herr, hst, oget_oset, oget_odel, oget]
  · unfold errorHandler
    by_cases hd : env = "development" <;> by_cases hp : env = "production" <;>
      by_cases hc : 500 ≤ jsOrInt err.status INTERNAL_SERVER_ERROR <;>
      cases herr : err.errors <;>
      cases hst : err.stack <;>
      simp [hasKey, hd, hp, hc, herr, hst, oget_oset, oget_odel, oget]
  · rw [hcode]
    unfold errorHandler
    by_cases hd : env = "development" <;> by_cases hp : env = "production" <;>
      by_cases hc : 500 ≤ jsOrInt err.status INTERNAL_SERVER_ERROR <;>
      cases herr : err.errors <;>
      cases hst : err.stack <;>
      simp [hasKey, hd, hp, hc, herr, hst, oget_oset, oget_odel, oget]

/-- Witness for C7 applying the amended contract at a concrete 400
failure. -/
theorem c7_envelope_amended_witness :
    (errorHandler "production"
        { status := some 400, message := "bad", errors := some [⟨"f", "m"⟩]
          stack := none, ctorName := "APIError" }).1 = 400 := by
  exact (c7_envelope_amended "production"
    { status := some 400, message := "bad", errors := some [⟨"f", "m"⟩]
      stack := none, ctorName := "APIError" }).2.1 400 rfl (by decide)

/-- C8 counterexample: the claim says an unparseable perPage behaves as
if the parameter were absent.  With perPage = "abc" (which coerces to
NaN) the pagination guard, which tests only truthiness, still fires:
bounds are handed to the store (both NaN), unlike the absent case where
no bounds are applied at all. -/
theorem c8_unparseable_perpage_counterexample :
    jsNumber "abc" = none ∧
      paginationBounds [("perPage", "abc")] = some (none, none) ∧
      paginationBounds [] = none ∧
      ¬paginationBounds [("perPage", "abc")] = paginationBounds [] := by
  exact ⟨by decide, by decide, by decide, by decide⟩

/-- C8 amended: the pure query-plan components never raise and malformed
directives degrade leniently - an absent or empty perPage applies no
pagination bounds, and empty sort directives yield the empty sort order -
but a present, truthy perPage always fires the pagination guard, handing
the store skip and limit values that are NaN when the string is
unparseable (it does not behave as if the parameter were absent). -/
theorem c8_lenient_degrade_amended (q : List (String × String)) :
    (oget q "perPage" = none → paginationBounds q = none) ∧
      (oget q "perPage" = some "" → paginationBounds q = none) ∧
      (∀ s, oget q "perPage" = some s → truthy s = true →
        paginationBounds q =
          some (jsMul (jsSub (pageNum q) (some 1)) (jsNumber s), jsNumber s)) ∧
      ((oget q "asc" = none ∨ oget q "asc" = some "") →
        (oget q "dsc" = none ∨ oget q "dsc" = some "") →
        buildSortOrder q = []) := by
  refine ⟨?_, ?_, ?_, ?_⟩
  · intro h
    simp [paginationBounds, shouldPaginate, truthyOpt, h]
  · intro h
    simp [paginationBounds, shouldPaginate, truthyOpt, truthy, h]
  · intro s hs ht
    simp [paginationBounds, shouldPaginate, truthyOpt, hs, ht, perPageNum, pageNum]
  · intro ha hd
    cases ha <;> cases hd <;>
      simp_all [buildSortOrder, getFieldAsArray, truthy]

/-- Witness for C8 at a concrete query with empty sort directives and an
unparseable perPage. -/
theorem c8_lenient_degrade_amended_witness :
    paginationBounds [("asc", ""), ("dsc", ""), ("perPage", "abc")] = some (none, none) ∧
      buildSortOrder [("asc", ""), ("dsc", ""), ("perPage", "abc")] = [] := by
  constructor
  · rw [(c8_lenient_degrade_amended [("asc", ""), ("dsc", ""), ("perPage", "abc")]).2.2.1
      "abc" (by decide) (by decide)]
    decide
  · exact (c8_lenient_degrade_amended [("asc", ""), ("dsc", ""), ("perPage", "abc")]).2.2.2
      (Or.inr (by decide)) (Or.inr (by decide))

/-- Any key that fails the literal-sweep guard and is neither the $text
nor the $or operator never appears in the built condition object,
whatever branch buildQueryConditions takes. -/
theorem conds_hasKey_false (m : ModelDesc) (q : List (String × String)) (k : String)
    (hlit : litKeep k = false) (ht : ¬"$text" = k) (ho : ¬"$or" = k) :
    hasKey (buildQueryConditions m q (findQueryOf q)) k = false := by
  unfold buildQueryConditions
  rw [findQueryOf_eq]
  cases hqq : oget q "query" with
  | none =>
    rw [addLiteralParams_eq]
    simp [hasKey, oget_osetAll, lastVal_litFilter_none q k hlit,
      oget_litFilter_none q k hlit]
  | some qs =>
    by_cases htr : truthy qs = true
    · by_cases hti : hasTextIndex m = true
      · simp only [htr, hti, if_true]
        simp [hasKey, oget_osetAll, lastVal_litFilter_none q k hlit, oget, ht]
      · simp only [htr, if_true, hti, if_false, Bool.false_eq_true]
        rw [addLiteralParams_eq]
        by_cases hsl : 0 < m.searchableFields.length
        · simp only [List.length_map, hsl, if_true]
          simp [hasKey, oget_osetAll, lastVal_litFilter_none q k hlit, oget_oset, ho,
            oget_litFilter_none q k hlit]
        · simp only [List.length_map, hsl, if_false]
          simp [hasKey, oget_osetAll, lastVal_litFilter_none q k hlit,
            oget_litFilter_none q k hlit]
    · simp only [htr, if_false, Bool.false_eq_true]
      rw [addLiteralParams_eq]
      simp [hasKey, oget_osetAll, lastVal_litFilter_none q k hlit,
        oget_litFilter_none q k hlit]

/-- C5: reserved control parameters and caller-supplied operator keys
never become filter conditions; a truthy free-text query yields the
structured text-search condition when the descriptor declares a text
index and otherwise the case-insensitive per-searchable-field regex
or-list; and every remaining literal parameter is carried into the
condition object with its value. -/
theorem c5_filter_condition_shape (m : ModelDesc) (q : List (String × String))
    (hq : (q.map Prod.fst).Nodup) :
    (∀ k, reservedVar.contains k = true →
        hasKey (buildQueryConditions m q (findQueryOf q)) k = false) ∧
      (∀ k, startsWithDollar k = true → ¬k = "$text" → ¬k = "$or" →
        hasKey (buildQueryConditions m q (findQueryOf q)) k = false) ∧
      (∀ qs, oget q "query" = some qs → truthy qs = true → hasTextIndex m = true →
        oget (buildQueryConditions m q (findQueryOf q)) "$text" =
          some (JsVal.obj [("$search", JsVal.str qs)])) ∧
      (∀ qs, oget q "query" = some qs → truthy qs = true → hasTextIndex m = false →
        oget (buildQueryConditions m q (findQueryOf q)) "$or" =
          (if 0 < m.searchableFields.length then
            some (JsVal.arr (m.searchableFields.map
              (fun field => JsVal.obj [(field, regexCond qs)])))
          else none)) ∧
      (∀ k v, oget q k = some v → startsWithDollar k = false →
        reservedVar.contains k = false →
        oget (buildQueryConditions m q (findQueryOf q)) k = some (JsVal.str v)) := by
  refine ⟨?_, ?_, ?_, ?_, ?_⟩
  · intro k hk
    refine conds_hasKey_false m q k ?_ ?_ ?_
    · unfold litKeep
      rw [hk]
      simp
    · intro h
      rw [← h] at hk
      exact absurd hk (by decide)
    · intro h
      rw [← h] at hk
      exact absurd hk (by decide)
  · intro k hk ht ho
    refine conds_hasKey_false m q k (by simp [litKeep, hk]) (fun h => ht h.symm)
      (fun h => ho h.symm)
  · intro qs hqs htr hti
    unfold buildQueryConditions
    rw [findQueryOf_eq, hqs]
    simp only [htr, hti, if_true]
    rw [oget_osetAll]
    rw [lastVal_litFilter_none q "$text" (by decide)]
    simp [oget]
  · intro qs hqs htr hti
    unfold buildQueryConditions
    rw [findQueryOf_eq, hqs]
    simp only [htr, if_true, hti, if_false, Bool.false_eq_true]
    rw [addLiteralParams_eq, oget_osetAll]
    rw [lastVal_litFilter_none q "$or" (by decide)]
    by_cases hsl : 0 < m.searchableFields.length
    · simp only [List.length_map, hsl, if_true]
      simp [oget_oset]
    · simp only [List.length_map, hsl, if_false]
      simp [oget_litFilter_none q "$or" (by decide), hsl]
  · intro k v hkv hsw hres
    have hlit : litKeep k = true := by
      unfold litKeep
      rw [hsw, hres]
      simp
    have hlast := lastVal_litFilter_some q k v hq hkv hlit
    unfold buildQueryConditions
    rw [findQueryOf_eq]
    cases hqq : oget q "query" with
    | none =>
      rw [addLiteralParams_eq, oget_osetAll, hlast]
    | some qs =>
      by_cases htr : truthy qs = true
      · by_cases hti : hasTextIndex m = true
        · simp only [htr, hti, if_true]
          rw [oget_osetAll, hlast]
        · simp only [htr, if_true, hti, if_false, Bool.false_eq_true]
          rw [addLiteralParams_eq, oget_osetAll, hlast]
      · simp only [htr, if_false, Bool.false_eq_true]
        rw [addLiteralParams_eq, oget_osetAll, hlast]

/-- Witness for C5 at a concrete query against the company descriptor
(which has no text index): reserved and operator keys are dropped, the
regex or-list is built over name and slug, and the literal status
parameter is carried through. -/
theorem c5_filter_condition_shape_witness :
    hasKey (buildQueryConditions companyModel
        [("query", "acm"), ("status", "active"), ("page", "2"), ("$where", "x")]
        (findQueryOf [("query", "acm"), ("status", "active"), ("page", "2"), ("$where", "x")]))
      "page" = false ∧
      hasKey (buildQueryConditions companyModel
          [("query", "acm"), ("status", "active"), ("page", "2"), ("$where", "x")]
          (findQueryOf [("query", "acm"), ("status", "active"), ("page", "2"), ("$where", "x")]))
        "$where" = false ∧
      oget (buildQueryConditions companyModel
          [("query", "acm"), ("status", "active"), ("page", "2"), ("$where", "x")]
          (findQueryOf [("query", "acm"), ("status", "active"), ("page", "2"), ("$where", "x")]))
        "$or" =
        some (JsVal.arr
          [ JsVal.obj [("name", regexCond "acm")], JsVal.obj [("slug", regexCond "acm")] ]) ∧
      oget (buildQueryConditions companyModel
          [("query", "acm"), ("status", "active"), ("page", "2"), ("$where", "x")]
          (findQueryOf [("query", "acm"), ("status", "active"), ("page", "2"), ("$where", "x")]))
        "status" = some (JsVal.str "active") := by
  have h := c5_filter_condition_shape companyModel
    [("query", "acm"), ("status", "active"), ("page", "2"), ("$where", "x")] (by decide)
  refine ⟨h.1 "page" (by decide), h.2.1 "$where" (by decide) (by decide) (by decide), ?_, ?_⟩
  · rw [h.2.2.2.1 "acm" (by decide) (by decide) (by decide)]
    rfl
  · exact h.2.2.2.2 "status" "active" (by decide) (by decide) (by decide)

/-- C2: page defaults to 1 and perPage defaults to 10; pagination bounds
are applied only when the caller supplied perPage, the total count is
always computed against the filter alone, without perPage the returned
count equals that total (no truncation), and with perPage = N at least 1
the returned page is the skip/limit slice and holds at most N records
while total still reflects the unconditional match count. -/
theorem c2_pagination_contract (matchFn : List (String × JsVal) → Record → Bool)
    (store : List Record) (m : ModelDesc) (q : List (String × String)) :
    (pageNum [] = some 1 ∧ perPageNum [] = some 10) ∧
      (oget q "perPage" = none →
        ∃ resp, listHandler matchFn store m q = some resp ∧
          resp.data = baseResults matchFn store m q ∧
          resp.count = totalCount matchFn store m q ∧
          resp.total = totalCount matchFn store m q) ∧
      (∀ (N P : Nat) (s : String), 1 ≤ N → 1 ≤ P →
        oget q "perPage" = some s → jsNumber s = some (N : Int) →
        pageNum q = some (P : Int) →
        ∃ resp, listHandler matchFn store m q = some resp ∧
          resp.data = ((baseResults matchFn store m q).drop ((P - 1) * N)).take N ∧
          resp.count = resp.data.length ∧
          resp.count ≤ N ∧
          resp.total = totalCount matchFn store m q) := by
  refine ⟨⟨rfl, rfl⟩, ?_, ?_⟩
  · intro h
    have hsp : shouldPaginate q = false := by
      simp [shouldPaginate, truthyOpt, h]
    have hlh : listHandler matchFn store m q =
        some { status := OK
               data := baseResults matchFn store m q
               code := OK
               count := (baseResults matchFn store m q).length
               total := totalCount matchFn store m q
               message := if 0 < (baseResults matchFn store m q).length then
                   SuccessMessages.RETRIEVED
                 else CtrlMessages.NOT_FOUND } := by
      unfold listHandler
      rw [hsp]
      simp
    exact ⟨_, hlh, rfl, by simp [length_baseResults], rfl⟩
  · intro N P s hN hP hs hjs hpn
    have hsne : truthy s = true := by
      by_contra hcon
      have hse : s = "" := by
        revert hcon
        unfold truthy
        simp
      rw [hse] at hjs
      have h0 : some (0 : Int) = some ((N : Nat) : Int) := by
        rw [← hjs]
        rfl
      have : (0 : Int) = ((N : Nat) : Int) := Option.some.inj h0
      have : N = 0 := by exact_mod_cast this.symm
      omega
    have hspt : shouldPaginate q = true := by
      simp [shouldPaginate, truthyOpt, hs, hsne]
    have hper : perPageNum q = some ((N : Nat) : Int) := by
      simp [perPageNum, hs, hjs]
    have hskip : jsMul (jsSub (pageNum q) (some 1)) (perPageNum q) =
        some ((((P - 1) * N : Nat)) : Int) := by
      rw [hpn, hper]
      simp only [jsSub, jsMul]
      congr 1
      push_cast [Nat.cast_sub hP]
      ring
    have hlh : listHandler matchFn store m q =
        some { status := OK
               data := ((baseResults matchFn store m q).drop ((P - 1) * N)).take N
               code := OK
               count := (((baseResults matchFn store m q).drop ((P - 1) * N)).take N).length
               total := totalCount matchFn store m q
               message := if 0 < (((baseResults matchFn store m q).drop ((P - 1) * N)).take
                     N).length then
                   SuccessMessages.RETRIEVED
                 else CtrlMessages.NOT_FOUND } := by
      unfold listHandler
      rw [hspt, hskip, hper]
      have hnn : ¬((((P - 1) * N : Nat)) : Int) < 0 :=
        not_lt.mpr (Int.natCast_nonneg _)
      simp only [if_true, hnn, if_false, Int.toNat_natCast, Option.map_some']
    refine ⟨_, hlh, rfl, rfl, ?_, rfl⟩
    calc (((baseResults matchFn store m q).drop ((P - 1) * N)).take N).length
        ≤ N := by
          rw [List.length_take]
          exact min_le_left _ _

/-- Witness for C2 at a concrete three-record store with perPage = 2:
the page holds at most two records while total counts all three. -/
theorem c2_pagination_contract_witness :
    ∃ resp, listHandler (fun _ _ => true)
        [{ id := "1", fields := [] }, { id := "2", fields := [] }, { id := "3", fields := [] }]
        companyModel [("perPage", "2")] = some resp ∧
      resp.count ≤ 2 ∧ resp.total = 3 := by
  obtain ⟨resp, h1, _, _, h4, h5⟩ := (c2_pagination_contract (fun _ _ => true)
    [{ id := "1", fields := [] }, { id := "2", fields := [] }, { id := "3", fields := [] }]
    companyModel [("perPage", "2")]).2.2 2 1 "2"
    (by decide) (by decide) (by decide) (by decide) (by decide)
  exact ⟨resp, h1, h4, by rw [h5]; rfl⟩

end NodeBoilerplate
